import Mathlib

set_option linter.unusedVariables false

unseal Rat.mul Rat.add Rat.sub Rat.inv Rat.ofScientific

namespace MomCareBot

/-- Python strings are modelled as lists of characters. -/
abbrev Str := List Char

/-- Whitespace test used to model Python str.strip. -/
def isWS (c : Char) : Bool := c.isWhitespace

/-- Model of Python str.strip: remove whitespace from both ends. -/
def pyStrip (s : Str) : Str :=
  ((s.dropWhile isWS).reverse.dropWhile isWS).reverse

/-- Whether the pattern occurs at the head of the string. -/
def leadsWith : Str → Str → Bool
  | [], _ => true
  | _ :: _, [] => false
  | p :: ps, c :: cs => p == c && leadsWith ps cs

/-- Fuelled helper for pyRemove; the fuel dominates the length of the string,
so that the recursion is structural and kernel-reducible. -/
def pyRemoveFuel (p : Str) : Nat → Str → Str
  | 0, s => s
  | _, [] => []
  | fuel + 1, c :: cs =>
    if leadsWith p (c :: cs) && !p.isEmpty then
      pyRemoveFuel p fuel (List.drop (p.length - 1) cs)
    else
      c :: pyRemoveFuel p fuel cs

/-- Model of Python s.replace(p, empty): delete every non-overlapping
occurrence of p, scanning left to right. -/
def pyRemove (p : Str) (s : Str) : Str := pyRemoveFuel p s.length s

theorem pyRemoveFuel_nil (p : Str) (f : Nat) : pyRemoveFuel p f [] = [] := by
  cases f <;> rfl

theorem pyRemoveFuel_congr (p : Str) :
    ∀ f1 f2 (s : Str), s.length ≤ f1 → s.length ≤ f2 →
      pyRemoveFuel p f1 s = pyRemoveFuel p f2 s := by
  intro f1
  induction f1 with
  | zero =>
    intro f2 s h1 h2
    have : s = [] := List.length_eq_zero.mp (Nat.le_zero.mp h1)
    subst this
    rw [pyRemoveFuel_nil, pyRemoveFuel_nil]
  | succ g1 ih =>
    intro f2 s h1 h2
    match s, f2 with
    | [], _ => rw [pyRemoveFuel_nil, pyRemoveFuel_nil]
    | c :: cs, 0 => exact absurd h2 (by simp)
    | c :: cs, g2 + 1 =>
      simp only [pyRemoveFuel]
      by_cases hcond : (leadsWith p (c :: cs) && !p.isEmpty) = true
      · rw [if_pos hcond, if_pos hcond]
        apply ih
        · have := List.length_drop (p.length - 1) cs
          simp only [List.length_cons] at h1
          omega
        · have := List.length_drop (p.length - 1) cs
          simp only [List.length_cons] at h2
          omega
      · rw [if_neg hcond, if_neg hcond]
        simp only [List.length_cons] at h1 h2
        rw [ih g2 cs (by omega) (by omega)]

/-- Unfolding equation for pyRemove on a cons cell. -/
theorem pyRemove_cons (p : Str) (c : Char) (cs : Str) :
    pyRemove p (c :: cs) =
      if leadsWith p (c :: cs) && !p.isEmpty then
        pyRemove p (List.drop (p.length - 1) cs)
      else
        c :: pyRemove p cs := by
  unfold pyRemove
  simp only [List.length_cons, pyRemoveFuel]
  by_cases hcond : (leadsWith p (c :: cs) && !p.isEmpty) = true
  · rw [if_pos hcond, if_pos hcond]
    apply pyRemoveFuel_congr
    · have := List.length_drop (p.length - 1) cs
      omega
    · exact Nat.le_refl _
  · rw [if_neg hcond, if_neg hcond]

theorem pyRemove_nil (p : Str) : pyRemove p [] = [] := rfl

/-- Model of a leading sign in a Python float literal; true means negative. -/
def parseSign : Str → Bool × Str
  | [] => (false, [])
  | c :: r =>
    if c == '+' then (false, r)
    else if c == '-' then (true, r)
    else (false, c :: r)

/-- Numeric value of a digit string, most significant digit first. -/
def digitsToNat (s : Str) : Nat := s.foldl (fun a c => 10 * a + (c.toNat - 48)) 0

/-- Powers of ten as rationals, by structural recursion. -/
def pow10 : Nat → Rat
  | 0 => 1
  | n + 1 => 10 * pow10 n

/-- Integer powers of ten as rationals. -/
def intPow10 : Int → Rat
  | Int.ofNat n => pow10 n
  | Int.negSucc n => 1 / pow10 (n + 1)

/-- Mantissa value given the integer part and the fractional part. -/
def mantVal (ip fp : Str) : Rat :=
  (digitsToNat ip : Rat) + (digitsToNat fp : Rat) / pow10 fp.length

/-- Parse the exponent body following the letter e in a float literal. -/
def parseExp (s : Str) : Option Int :=
  let sg := parseSign s
  let d := sg.2.takeWhile Char.isDigit
  let rest := sg.2.dropWhile Char.isDigit
  if d.isEmpty || !rest.isEmpty then Option.none
  else Option.some (if sg.1 then -(digitsToNat d : Int) else (digitsToNat d : Int))

/-- Apply the sign and a power-of-ten exponent to a mantissa. -/
def applySignExp (neg : Bool) (m : Rat) (e : Int) : Rat :=
  (if neg then -m else m) * intPow10 e

/-- Parse what may follow the mantissa of a float literal. -/
def parseTail (neg : Bool) (m : Rat) : Str → Option Rat
  | [] => Option.some (applySignExp neg m 0)
  | c :: r =>
    if c == 'e' || c == 'E' then (parseExp r).map (applySignExp neg m)
    else Option.none

/-- Model of Python float(s) on an already stripped string: an optional sign,
a decimal mantissa and an optional exponent. Returns nothing when the text is
not a float literal. -/
def parseFloat (s : Str) : Option Rat :=
  let sg := parseSign s
  let ip := sg.2.takeWhile Char.isDigit
  let s2 := sg.2.dropWhile Char.isDigit
  match s2 with
  | [] => if ip.isEmpty then Option.none else parseTail sg.1 (mantVal ip []) []
  | c :: r =>
    if c == '.' then
      if ip.isEmpty && (r.takeWhile Char.isDigit).isEmpty then Option.none
      else parseTail sg.1 (mantVal ip (r.takeWhile Char.isDigit)) (r.dropWhile Char.isDigit)
    else if ip.isEmpty then Option.none
    else parseTail sg.1 (mantVal ip []) (c :: r)

/-- A spreadsheet cell: empty, numeric, or text. Python numbers are modelled
as rationals. -/
inductive Cell where
  | blank
  | num (q : Rat)
  | txt (s : Str)
deriving DecidableEq

/-- The two-character pound marker exactly as written in the source. -/
def poundMarker : Str := "Â£".data

/-- The three-letter pound code marker. -/
def gbpMarker : Str := "GBP".data

/-- The three-letter naira code marker. -/
def ngnMarker : Str := "NGN".data

/-- The three-character naira marker exactly as written in the source. -/
def nairaMarker : Str := "â‚¦".data

/-- The thousands separator. -/
def commaStr : Str := ",".data

/-- Model of plan_reader._to_float: coerce a cell to a GBP number. -/
def _to_float : Cell → Option Rat
  | Cell.blank => Option.none
  | Cell.num q => Option.some q
  | Cell.txt v =>
    let s0 := pyRemove commaStr (pyStrip v)
    let s1 := pyStrip (pyRemove poundMarker s0)
    let s2 := pyStrip (pyRemove gbpMarker s1)
    let s3 := pyStrip (pyRemove ngnMarker s2)
    let s4 := pyStrip (pyRemove nairaMarker s3)
    if s4.isEmpty then Option.none else parseFloat s4

/-- Model of plan_reader._to_ngn_float: coerce a cell to an NGN number. -/
def _to_ngn_float : Cell → Option Rat
  | Cell.blank => Option.none
  | Cell.num q => Option.some q
  | Cell.txt v =>
    let s0 := pyRemove commaStr (pyStrip v)
    let s1 := pyStrip (pyRemove ngnMarker (pyRemove nairaMarker s0))
    if s1.isEmpty then Option.none else parseFloat s1

/-- The marker-free, separator-free, trimmed form of a text cell for the GBP
variant, as the spec describes it: separators removed, then each recognized
marker removed, then whitespace trimmed once. -/
def strippedGBP (v : Str) : Str :=
  pyStrip (pyRemove nairaMarker (pyRemove ngnMarker (pyRemove gbpMarker
    (pyRemove poundMarker (pyRemove commaStr (pyStrip v))))))

/-- The marker-free, separator-free, trimmed form of a text cell for the NGN
variant. -/
def strippedNGN (v : Str) : Str :=
  pyStrip (pyRemove ngnMarker (pyRemove nairaMarker (pyRemove commaStr (pyStrip v))))

/-- Lowercasing, modelling Python str.lower on the ASCII labels involved. -/
def toLowerStr (s : Str) : Str := s.map Char.toLower

/-- Uppercasing, modelling Python str.upper on the ASCII labels involved. -/
def toUpperStr (s : Str) : Str := s.map Char.toUpper

/-- Model of Python str(x) for a numeric cell value: integral values print
with a trailing .0 as Python floats do. -/
def numRepr (q : Rat) : Str :=
  (toString q.num).data ++
    (if q.den == 1 then ['.', '0'] else '/' :: (toString q.den).data)

/-- The textual content of a cell as Python str(value); an empty cell has
no text. -/
def cellStr : Cell → Option Str
  | Cell.blank => Option.none
  | Cell.num q => Option.some (numRepr q)
  | Cell.txt s => Option.some s

/-- Python truthiness of a cell value. -/
def cellTruthy : Cell → Bool
  | Cell.blank => false
  | Cell.num q => q != 0
  | Cell.txt s => !s.isEmpty

/-- A worksheet row: columns A to D of the sheet. -/
structure Row where
  c1 : Cell
  c2 : Cell
  c3 : Cell
  c4 : Cell
deriving DecidableEq

/-- The worksheet as an ordered list of rows. -/
abbrev Grid := List Row

/-- A row all of whose cells are empty. -/
def defaultRow : Row := ⟨Cell.blank, Cell.blank, Cell.blank, Cell.blank⟩

/-- The Weekly Income anchor label. -/
def weeklyLabel : Str := "Weekly Income".data

/-- The Monthly Income anchor label. -/
def monthlyLabel : Str := "Monthly Income".data

/-- The breakdown header anchor label. -/
def headerLabel : Str := "MONTHLY SUPPORT BREAKDOWN".data

/-- The totals sentinel label. -/
def totalLabel : Str := "TOTAL MONTHLY SUPPORT".data

/-- The second terminal sentinel label. -/
def remainingLabel : Str := "REMAINING FOR YOU".data

/-- Model of the find_row helper: index of the first row whose column A text
equals the label, case-insensitively after trimming. -/
def find_row (label : Str) (g : Grid) : Option Nat :=
  g.findIdx? (fun row =>
    match cellStr row.c1 with
    | Option.none => false
    | Option.some a => toLowerStr (pyStrip a) == toLowerStr (pyStrip label))

/-- One budget line of the plan, as in plan_reader.BudgetItem. -/
structure BudgetItem where
  category : Str
  amount_gbp : Rat
  amount_ngn : Option Rat
  notes : Str
deriving DecidableEq

/-- The parsed plan, as in plan_reader.CarePlan. -/
structure CarePlan where
  weekly_income_gbp : Rat
  monthly_income_gbp : Rat
  total_support_gbp : Rat
  total_support_ngn : Option Rat
  items : List BudgetItem
deriving DecidableEq

/-- Model of the notes expression of the source: str(note).strip() when the
note cell is truthy, else the empty string. -/
def noteText (c : Cell) : Str :=
  if cellTruthy c then
    match cellStr c with
    | Option.some a => pyStrip a
    | Option.none => []
  else []

/-- Model of the while loop over the rows below the breakdown header:
collect budget items until the first terminal sentinel row, capturing the
totals from the totals sentinel; returns the items, the captured total and
the captured NGN total. -/
def scanItems : List Row → List BudgetItem × Rat × Option Rat
  | [] => ([], 0, Option.none)
  | row :: rest =>
    match cellStr row.c1 with
    | Option.none => scanItems rest
    | Option.some a =>
      let cat := pyStrip a
      if cat.isEmpty then scanItems rest
      else if toUpperStr cat == totalLabel || toUpperStr cat == remainingLabel then
        if toUpperStr cat == totalLabel then
          ([], (_to_float row.c2).getD 0, _to_ngn_float row.c3)
        else ([], 0, Option.none)
      else
        match _to_float row.c2 with
        | Option.none => scanItems rest
        | Option.some amt =>
          let res := scanItems rest
          (⟨cat, amt, _to_ngn_float row.c3, noteText row.c4⟩ :: res.1, res.2.1, res.2.2)

/-- Sum of the primary amounts of a list of items. -/
def itemSum (items : List BudgetItem) : Rat :=
  items.foldr (fun i a => i.amount_gbp + a) 0

/-- The two hard failure conditions of plan extraction within the grid model:
the missing-anchor errors raised as ValueError by the source. -/
inductive ReadErr where
  | missingIncomeRows
  | missingBreakdownHeader
deriving DecidableEq

/-- Model of read_care_plan_from_excel on an in-memory grid; the file and
sheet lookups of the source sit outside the grid model. -/
def read_care_plan_from_excel (g : Grid) : Except ReadErr CarePlan :=
  match find_row weeklyLabel g, find_row monthlyLabel g with
  | Option.some wr, Option.some mr =>
    let weekly := (_to_float (g.getD wr defaultRow).c2).getD 0
    let monthly := (_to_float (g.getD mr defaultRow).c2).getD 0
    match find_row headerLabel g with
    | Option.some hr =>
      let res := scanItems (g.drop (hr + 1))
      let total := if res.2.1 == 0 && !res.1.isEmpty then itemSum res.1 else res.2.1
      Except.ok ⟨weekly, monthly, total, res.2.2, res.1⟩
    | Option.none => Except.error ReadErr.missingBreakdownHeader
  | _, _ => Except.error ReadErr.missingIncomeRows

/-- Spec-level view: the trimmed text label of a row, if any. -/
def rowLabel (row : Row) : Option Str := (cellStr row.c1).map pyStrip

/-- Spec-level view: whether a row is a terminal sentinel row, by the
wording of the spec (label equal, case-insensitively after trimming, to one
of the two sentinel labels). -/
def isTerminalRow (row : Row) : Bool :=
  match rowLabel row with
  | Option.some l => toUpperStr l == totalLabel || toUpperStr l == remainingLabel
  | Option.none => false

/-- Spec-level view: whether a row is the totals sentinel row. -/
def isTotalsRow (row : Row) : Bool :=
  match rowLabel row with
  | Option.some l => toUpperStr l == totalLabel
  | Option.none => false

/-- Spec-level view of one breakdown row as an item: requires a non-blank
label and a coercible column B amount. -/
def specItem? (row : Row) : Option BudgetItem :=
  match rowLabel row with
  | Option.none => Option.none
  | Option.some cat =>
    if cat.isEmpty then Option.none
    else
      match _to_float row.c2 with
      | Option.none => Option.none
      | Option.some amt => Option.some ⟨cat, amt, _to_ngn_float row.c3, noteText row.c4⟩

/-- Spec-level view of the extracted items: exactly the item rows strictly
before the first terminal sentinel, in grid order. -/
def specItems (region : List Row) : List BudgetItem :=
  (region.takeWhile (fun r => !isTerminalRow r)).filterMap specItem?

/-- Spec-level view: the first terminal sentinel row of the region. -/
def firstTerminal (region : List Row) : Option Row :=
  (region.dropWhile (fun r => !isTerminalRow r)).head?

/-- Spec-level view: the totals sentinel row actually reached, that is the
first terminal row when it is the totals sentinel. -/
def totalsRow (region : List Row) : Option Row :=
  match firstTerminal region with
  | Option.some r => if isTotalsRow r then Option.some r else Option.none
  | Option.none => Option.none

/-- Spec-level view of the captured totals: both come from the totals
sentinel row when it is reached, and are zero and absent otherwise. -/
def specTotals (region : List Row) : Rat × Option Rat :=
  match totalsRow region with
  | Option.some r => ((_to_float r.c2).getD 0, _to_ngn_float r.c3)
  | Option.none => (0, Option.none)

theorem isTerminalRow_of_cellStr_none (row : Row) (hc : cellStr row.c1 = Option.none) :
    isTerminalRow row = false := by
  simp [isTerminalRow, rowLabel, hc]

theorem isTerminalRow_of_empty (row : Row) (a : Str) (hc : cellStr row.c1 = Option.some a)
    (he : (pyStrip a).isEmpty = true) : isTerminalRow row = false := by
  have : pyStrip a = [] := by simpa [List.isEmpty_iff] using he
  simp [isTerminalRow, rowLabel, hc, this, toUpperStr, totalLabel, remainingLabel]

/-- The while loop agrees with the spec-level description: the items are the
coercible non-blank rows strictly before the first terminal sentinel, and
the totals are read from the totals sentinel row only. -/
theorem scanItems_eq (region : List Row) :
    scanItems region = (specItems region, specTotals region) := by
  induction region with
  | nil => rfl
  | cons row rest ih =>
    have hspecItems : specItems (row :: rest) =
        if isTerminalRow row then []
        else (specItem? row).toList ++ specItems rest := by
      simp only [specItems, List.takeWhile_cons]
      by_cases ht : isTerminalRow row
      · simp [ht]
      · simp [ht, List.filterMap_cons]
        cases specItem? row <;> simp
    have hspecTotals : specTotals (row :: rest) =
        if isTerminalRow row then
          (if isTotalsRow row then ((_to_float row.c2).getD 0, _to_ngn_float row.c3)
           else (0, Option.none))
        else specTotals rest := by
      simp only [specTotals, totalsRow, firstTerminal, List.dropWhile_cons]
      by_cases ht : isTerminalRow row
      · by_cases htot : isTotalsRow row <;> simp [ht, htot]
      · simp [ht]
    cases hc : cellStr row.c1 with
    | none =>
      have ht := isTerminalRow_of_cellStr_none row hc
      have hi : specItem? row = Option.none := by simp [specItem?, rowLabel, hc]
      simp [scanItems, hc, hspecItems, hspecTotals, ht, hi, ih]
    | some a =>
      by_cases he : (pyStrip a).isEmpty = true
      · have ht := isTerminalRow_of_empty row a hc he
        have hi : specItem? row = Option.none := by simp [specItem?, rowLabel, hc, he]
        simp [scanItems, hc, he, hspecItems, hspecTotals, ht, hi, ih]
      · by_cases hsent : (toUpperStr (pyStrip a) == totalLabel ||
            toUpperStr (pyStrip a) == remainingLabel) = true
        · have ht : isTerminalRow row = true := by
            simp only [isTerminalRow, rowLabel, hc, Option.map_some]
            exact hsent
          by_cases htot : (toUpperStr (pyStrip a) == totalLabel) = true
          · have htotr : isTotalsRow row = true := by
              simp only [isTotalsRow, rowLabel, hc, Option.map_some]
              exact htot
            simp [scanItems, hc, he, hsent, htot, hspecItems, hspecTotals, ht, htotr]
          · have htotr : isTotalsRow row = false := by
              simp only [isTotalsRow, rowLabel, hc, Option.map_some]
              simpa using htot
            have hrem : (toUpperStr (pyStrip a) == remainingLabel) = true := by
              rcases Bool.or_eq_true_iff.mp hsent with h | h
              · exact absurd h htot
              · exact h
            simp [scanItems, hc, he, hrem, htot, hspecItems, hspecTotals, ht, htotr]
        · have ht : isTerminalRow row = false := by
            simp only [isTerminalRow, rowLabel, hc, Option.map_some]
            simpa using hsent
          cases hg : _to_float row.c2 with
          | none =>
            have hi : specItem? row = Option.none := by
              simp [specItem?, rowLabel, hc, he, hg]
            simp [scanItems, hc, he, hsent, hg, hspecItems, hspecTotals, ht, hi, ih]
          | some amt =>
            have hi : specItem? row =
                Option.some ⟨pyStrip a, amt, _to_ngn_float row.c3, noteText row.c4⟩ := by
              simp [specItem?, rowLabel, hc, he, hg]
            simp [scanItems, hc, he, hsent, hg, hspecItems, hspecTotals, ht, hi, ih]

/-- Fuelled version of the while loop, one unit of fuel per visited row:
the explicit finite iteration with early termination that the spec asks for.
Returns nothing when the fuel runs out before the region is exhausted or a
terminal sentinel is reached. -/
def scanItemsFuel : Nat → List Row → Option (List BudgetItem × Rat × Option Rat)
  | _, [] => Option.some ([], 0, Option.none)
  | 0, _ :: _ => Option.none
  | fuel + 1, row :: rest =>
    match cellStr row.c1 with
    | Option.none => scanItemsFuel fuel rest
    | Option.some a =>
      let cat := pyStrip a
      if cat.isEmpty then scanItemsFuel fuel rest
      else if toUpperStr cat == totalLabel || toUpperStr cat == remainingLabel then
        if toUpperStr cat == totalLabel then
          Option.some ([], (_to_float row.c2).getD 0, _to_ngn_float row.c3)
        else Option.some ([], 0, Option.none)
      else
        match _to_float row.c2 with
        | Option.none => scanItemsFuel fuel rest
        | Option.some amt =>
          (scanItemsFuel fuel rest).map fun res =>
            (⟨cat, amt, _to_ngn_float row.c3, noteText row.c4⟩ :: res.1, res.2.1, res.2.2)

theorem findIdx?_lt_length {α : Type} (p : α → Bool) :
    ∀ (l : List α) (i : Nat), l.findIdx? p = Option.some i → i < l.length := by
  intro l
  induction l with
  | nil => intro i h; simp [List.findIdx?] at h
  | cons a as ih =>
    intro i h
    rw [List.findIdx?_cons] at h
    by_cases hp : p a = true
    · simp [hp] at h
      simp [List.length_cons]
      omega
    · simp [hp] at h
      rcases h with ⟨j, hj, hij⟩
      have := ih j hj
      simp [List.length_cons]
      omega

theorem find_row_lt_length (label : Str) (g : Grid) (i : Nat)
    (h : find_row label g = Option.some i) : i < g.length :=
  findIdx?_lt_length _ g i h

/-- Successful extraction, written out through the spec-level views of the
breakdown region. -/
theorem read_ok_spec (g : Grid) (wr mr hr : Nat)
    (hw : find_row weeklyLabel g = Option.some wr)
    (hm : find_row monthlyLabel g = Option.some mr)
    (hh : find_row headerLabel g = Option.some hr) :
    read_care_plan_from_excel g = Except.ok
      ⟨(_to_float (g.getD wr defaultRow).c2).getD 0,
       (_to_float (g.getD mr defaultRow).c2).getD 0,
       (if (specTotals (g.drop (hr + 1))).1 == 0 &&
           !(specItems (g.drop (hr + 1))).isEmpty
        then itemSum (specItems (g.drop (hr + 1)))
        else (specTotals (g.drop (hr + 1))).1),
       (specTotals (g.drop (hr + 1))).2,
       specItems (g.drop (hr + 1))⟩ := by
  simp [read_care_plan_from_excel, hw, hm, hh, scanItems_eq]

instance {ε α : Type} [DecidableEq ε] [DecidableEq α] : DecidableEq (Except ε α) := fun x y =>
  match x, y with
  | Except.ok a, Except.ok b =>
    if h : a = b then Decidable.isTrue (by rw [h]) else Decidable.isFalse (by simp [h])
  | Except.ok _, Except.error _ => Decidable.isFalse (by simp)
  | Except.error _, Except.ok _ => Decidable.isFalse (by simp)
  | Except.error e, Except.error f =>
    if h : e = f then Decidable.isTrue (by rw [h]) else Decidable.isFalse (by simp [h])

/-- The scenario grid of the spec: income rows, header, one Transport item
and a totals sentinel row. -/
def exGrid : Grid :=
  [⟨Cell.txt "Weekly Income".data, Cell.num 100, Cell.blank, Cell.blank⟩,
   ⟨Cell.txt "Monthly Income".data, Cell.num 433, Cell.blank, Cell.blank⟩,
   ⟨Cell.txt "MONTHLY SUPPORT BREAKDOWN".data, Cell.blank, Cell.blank, Cell.blank⟩,
   ⟨Cell.txt "Transport".data, Cell.num 50, Cell.txt "20,000".data, Cell.txt "".data⟩,
   ⟨Cell.txt "TOTAL MONTHLY SUPPORT".data, Cell.num 50, Cell.txt "20,000".data, Cell.blank⟩]

/-- The item extracted from the scenario grid. -/
def exItem : BudgetItem := ⟨"Transport".data, 50, Option.some 20000, []⟩

example : read_care_plan_from_excel exGrid =
    Except.ok ⟨100, 433, 50, Option.some 20000, [exItem]⟩ := by decide

/-- A grid whose totals sentinel row carries the value zero while the single
item sums to fifty. -/
def zeroTotalsGrid : Grid :=
  [⟨Cell.txt "Weekly Income".data, Cell.num 100, Cell.blank, Cell.blank⟩,
   ⟨Cell.txt "Monthly Income".data, Cell.num 433, Cell.blank, Cell.blank⟩,
   ⟨Cell.txt "MONTHLY SUPPORT BREAKDOWN".data, Cell.blank, Cell.blank, Cell.blank⟩,
   ⟨Cell.txt "Transport".data, Cell.num 50, Cell.blank, Cell.blank⟩,
   ⟨Cell.txt "TOTAL MONTHLY SUPPORT".data, Cell.num 0, Cell.num 20000, Cell.blank⟩]

example : read_care_plan_from_excel zeroTotalsGrid =
    Except.ok ⟨100, 433, 50, Option.some 20000,
      [⟨"Transport".data, 50, Option.none, []⟩]⟩ := by decide

/-- A grid with a negative Weekly Income cell. -/
def negGrid : Grid :=
  [⟨Cell.txt "Weekly Income".data, Cell.num (-5), Cell.blank, Cell.blank⟩,
   ⟨Cell.txt "Monthly Income".data, Cell.num 433, Cell.blank, Cell.blank⟩,
   ⟨Cell.txt "MONTHLY SUPPORT BREAKDOWN".data, Cell.blank, Cell.blank, Cell.blank⟩]

/-- A grid missing the Weekly Income anchor row. -/
def noWeeklyGrid : Grid :=
  [⟨Cell.txt "Monthly Income".data, Cell.num 433, Cell.blank, Cell.blank⟩,
   ⟨Cell.txt "MONTHLY SUPPORT BREAKDOWN".data, Cell.blank, Cell.blank, Cell.blank⟩]

example : read_care_plan_from_excel negGrid =
    Except.ok ⟨-5, 433, 0, Option.none, []⟩ := by decide

example : read_care_plan_from_excel noWeeklyGrid =
    Except.error ReadErr.missingIncomeRows := by decide

/-- Extraction returns an error exactly when one of the three anchor labels
has no match in column A. -/
theorem read_error_iff (g : Grid) :
    (∃ e, read_care_plan_from_excel g = Except.error e) ↔
      (find_row weeklyLabel g = Option.none ∨ find_row monthlyLabel g = Option.none ∨
        find_row headerLabel g = Option.none) := by
  rcases hw : find_row weeklyLabel g with _ | wr <;>
    rcases hm : find_row monthlyLabel g with _ | mr <;>
      rcases hh : find_row headerLabel g with _ | hr <;>
        simp [read_care_plan_from_excel, hw, hm, hh]

/-- A successful extraction presupposes all three anchors. -/
theorem read_ok_anchors (g : Grid) (p : CarePlan)
    (hok : read_care_plan_from_excel g = Except.ok p) :
    ∃ wr mr hr, find_row weeklyLabel g = Option.some wr ∧
      find_row monthlyLabel g = Option.some mr ∧
      find_row headerLabel g = Option.some hr := by
  rcases hw : find_row weeklyLabel g with _ | wr <;>
    rcases hm : find_row monthlyLabel g with _ | mr <;>
      rcases hh : find_row headerLabel g with _ | hr <;>
        simp [read_care_plan_from_excel, hw, hm, hh] at hok ⊢

/-- Claim C1 (corrected): with the three anchors present, when no
totals-sentinel row is reached in the breakdown region the extracted total
equals the item sum and the secondary total is absent; when the totals
sentinel is reached, the secondary total is the coerced column-3 value and
the primary total is the coerced column-2 value (defaulting to zero when
absent), used verbatim unless that value is zero while at least one item was
collected, in which case the item sum is used instead. -/
theorem C1_main (g : Grid) (hr : Nat) (p : CarePlan)
    (hh : find_row headerLabel g = Option.some hr)
    (hok : read_care_plan_from_excel g = Except.ok p) :
    (totalsRow (g.drop (hr + 1)) = Option.none →
      p.total_support_gbp = itemSum p.items ∧ p.total_support_ngn = Option.none) ∧
    (∀ r, totalsRow (g.drop (hr + 1)) = Option.some r →
      p.total_support_ngn = _to_ngn_float r.c3 ∧
      p.total_support_gbp =
        (if (_to_float r.c2).getD 0 = 0 ∧ p.items ≠ [] then itemSum p.items
         else (_to_float r.c2).getD 0)) := by
  obtain ⟨wr, mr, hr2, hw, hm, hh2⟩ := read_ok_anchors g p hok
  rw [hh] at hh2
  have hhr : hr2 = hr := by exact (Option.some.inj hh2).symm
  subst hhr
  rw [read_ok_spec g wr mr hr2 hw hm hh] at hok
  have hperm := Except.ok.inj hok
  subst hperm
  constructor
  · intro hnone
    simp only [specTotals, hnone]
    by_cases hemp : (specItems (g.drop (hr2 + 1))).isEmpty = true
    · have : specItems (g.drop (hr2 + 1)) = [] := by
        simpa [List.isEmpty_iff] using hemp
      simp [this, itemSum]
    · simp [hemp]
  · intro r hsome
    simp only [specTotals, hsome]
    by_cases hz : ((_to_float r.c2).getD 0) = 0
    · by_cases hemp : (specItems (g.drop (hr2 + 1))).isEmpty = true
      · have he : specItems (g.drop (hr2 + 1)) = [] := by
          simpa [List.isEmpty_iff] using hemp
        simp [hz, he, itemSum]
      · have hne : specItems (g.drop (hr2 + 1)) ≠ [] := by
          simpa [List.isEmpty_iff] using hemp
        simp [hz, hne, hemp]
    · have : ¬((_to_float r.c2).getD 0 == 0) = true := by
        simpa using hz
      simp [hz, this]

/-- Claim C1, counterexample to the claim as stated: in zeroTotalsGrid the
totals sentinel row is reached and its coerced column-2 value is zero, yet
the extracted total is the item sum fifty, not the sentinel value. -/
theorem C1_counterexample :
    find_row headerLabel zeroTotalsGrid = Option.some 2 ∧
    totalsRow (zeroTotalsGrid.drop (2 + 1)) =
      Option.some ⟨Cell.txt "TOTAL MONTHLY SUPPORT".data, Cell.num 0, Cell.num 20000,
        Cell.blank⟩ ∧
    (_to_float (Cell.num 0)).getD 0 = 0 ∧
    read_care_plan_from_excel zeroTotalsGrid =
      Except.ok ⟨100, 433, 50, Option.some 20000,
        [⟨"Transport".data, 50, Option.none, []⟩]⟩ ∧
    (50 : Rat) ≠ 0 := by decide

/-- Claim C1, witness: the amended theorem applied to the scenario grid. -/
theorem C1_witness :
    (⟨100, 433, 50, Option.some 20000, [exItem]⟩ : CarePlan).total_support_ngn =
      _to_ngn_float (Cell.txt "20,000".data) ∧
    (⟨100, 433, 50, Option.some 20000, [exItem]⟩ : CarePlan).total_support_gbp =
      (if (_to_float (Cell.num 50)).getD 0 = 0 ∧
          (⟨100, 433, 50, Option.some 20000, [exItem]⟩ : CarePlan).items ≠ [] then
        itemSum (⟨100, 433, 50, Option.some 20000, [exItem]⟩ : CarePlan).items
      else (_to_float (Cell.num 50)).getD 0) :=
  (C1_main exGrid 2 ⟨100, 433, 50, Option.some 20000, [exItem]⟩
      (by decide) (by decide)).2
    ⟨Cell.txt "TOTAL MONTHLY SUPPORT".data, Cell.num 50, Cell.txt "20,000".data, Cell.blank⟩
    (by decide)

/-- Claim C2 (confirmed): the extracted items are exactly the rows strictly
after the header and strictly before the first terminal sentinel whose label
is non-blank after trimming and whose column-2 value coerces, in grid row
order. -/
theorem C2_main (g : Grid) (hr : Nat) (p : CarePlan)
    (hh : find_row headerLabel g = Option.some hr)
    (hok : read_care_plan_from_excel g = Except.ok p) :
    p.items = specItems (g.drop (hr + 1)) := by
  obtain ⟨wr, mr, hr2, hw, hm, hh2⟩ := read_ok_anchors g p hok
  rw [hh] at hh2
  have hhr : hr2 = hr := by exact (Option.some.inj hh2).symm
  subst hhr
  rw [read_ok_spec g wr mr hr2 hw hm hh] at hok
  have hperm := Except.ok.inj hok
  subst hperm
  rfl

/-- Claim C2, witness: the items theorem applied to the scenario grid. -/
theorem C2_witness :
    (⟨100, 433, 50, Option.some 20000, [exItem]⟩ : CarePlan).items =
      specItems (exGrid.drop (2 + 1)) :=
  C2_main exGrid 2 ⟨100, 433, 50, Option.some 20000, [exItem]⟩ (by decide) (by decide)

/-- Claim C3 (confirmed): extraction fails exactly when one of the three
anchor labels has no case-insensitive trimmed match in column A, and income
cells whose coercion is absent default to zero rather than failing. -/
theorem C3_main (g : Grid) :
    ((∃ e, read_care_plan_from_excel g = Except.error e) ↔
      (find_row weeklyLabel g = Option.none ∨ find_row monthlyLabel g = Option.none ∨
        find_row headerLabel g = Option.none)) ∧
    (∀ p wr, read_care_plan_from_excel g = Except.ok p →
      find_row weeklyLabel g = Option.some wr →
      _to_float (g.getD wr defaultRow).c2 = Option.none →
      p.weekly_income_gbp = 0) ∧
    (∀ p mr, read_care_plan_from_excel g = Except.ok p →
      find_row monthlyLabel g = Option.some mr →
      _to_float (g.getD mr defaultRow).c2 = Option.none →
      p.monthly_income_gbp = 0) := by
  refine ⟨read_error_iff g, ?_, ?_⟩
  · intro p wr hok hw hnone
    obtain ⟨wr2, mr, hr, hw2, hm, hh⟩ := read_ok_anchors g p hok
    rw [hw] at hw2
    have : wr2 = wr := (Option.some.inj hw2).symm
    subst this
    rw [read_ok_spec g wr2 mr hr hw hm hh] at hok
    have hperm := Except.ok.inj hok
    subst hperm
    rw [List.getD_eq_getElem?_getD] at hnone
    simp [hnone]
  · intro p mr hok hm hnone
    obtain ⟨wr, mr2, hr, hw, hm2, hh⟩ := read_ok_anchors g p hok
    rw [hm] at hm2
    have : mr2 = mr := (Option.some.inj hm2).symm
    subst this
    rw [read_ok_spec g wr mr2 hr hw hm hh] at hok
    have hperm := Except.ok.inj hok
    subst hperm
    rw [List.getD_eq_getElem?_getD] at hnone
    simp [hnone]

/-- A grid whose Weekly Income cell does not coerce to a number. -/
def badIncomeGrid : Grid :=
  [⟨Cell.txt "Weekly Income".data, Cell.txt "abc".data, Cell.blank, Cell.blank⟩,
   ⟨Cell.txt "Monthly Income".data, Cell.num 433, Cell.blank, Cell.blank⟩,
   ⟨Cell.txt "MONTHLY SUPPORT BREAKDOWN".data, Cell.blank, Cell.blank, Cell.blank⟩]

/-- Claim C3, witness: a grid missing the Weekly Income anchor fails, and a
malformed income cell does not fail but defaults to zero. -/
theorem C3_witness :
    (∃ e, read_care_plan_from_excel noWeeklyGrid = Except.error e) ∧
    (⟨0, 433, 0, Option.none, []⟩ : CarePlan).weekly_income_gbp = 0 :=
  ⟨(C3_main noWeeklyGrid).1.mpr (Or.inl (by decide)),
   (C3_main badIncomeGrid).2.1 ⟨0, 433, 0, Option.none, []⟩ 0
     (by decide) (by decide) (by decide)⟩

/-- An item produced by specItem? carries the coerced column-2 amount of its
row. -/
theorem specItem?_inv (row : Row) (i : BudgetItem)
    (h : specItem? row = Option.some i) :
    _to_float row.c2 = Option.some i.amount_gbp := by
  unfold specItem? at h
  split at h
  · simp at h
  · split at h
    · simp at h
    · split at h
      · simp at h
      · rename_i cat hlab amt hamt
        cases Option.some.inj h
        exact hamt

/-- Claim C7 (corrected): nothing in the code enforces non-negativity, but
whenever every coerced column-2 value of the grid is non-negative (absent
values counting as zero), the extracted incomes and item amounts are all
non-negative. -/
theorem C7_main (g : Grid) (p : CarePlan)
    (hok : read_care_plan_from_excel g = Except.ok p)
    (hnn : ∀ row ∈ g, 0 ≤ (_to_float row.c2).getD 0) :
    0 ≤ p.weekly_income_gbp ∧ 0 ≤ p.monthly_income_gbp ∧
      ∀ i ∈ p.items, 0 ≤ i.amount_gbp := by
  obtain ⟨wr, mr, hr, hw, hm, hh⟩ := read_ok_anchors g p hok
  rw [read_ok_spec g wr mr hr hw hm hh] at hok
  have hperm := Except.ok.inj hok
  subst hperm
  refine ⟨?_, ?_, ?_⟩
  · have hwlt := find_row_lt_length _ g wr hw
    have hmem : g.getD wr defaultRow ∈ g := by
      rw [List.getD_eq_getElem g defaultRow hwlt]
      exact List.getElem_mem hwlt
    exact hnn _ hmem
  · have hmlt := find_row_lt_length _ g mr hm
    have hmem : g.getD mr defaultRow ∈ g := by
      rw [List.getD_eq_getElem g defaultRow hmlt]
      exact List.getElem_mem hmlt
    exact hnn _ hmem
  · intro i hi
    simp only [specItems, List.mem_filterMap] at hi
    obtain ⟨row, hrow, hitem⟩ := hi
    have hrowg : row ∈ g :=
      List.drop_subset (hr + 1) g ((List.takeWhile_sublist _).subset hrow)
    have hnnrow := hnn row hrowg
    rw [specItem?_inv row i hitem] at hnnrow
    simpa using hnnrow

/-- Claim C7, counterexample to the claim as stated: a grid with a negative
Weekly Income cell extracts successfully into a plan whose weekly income is
negative. -/
theorem C7_counterexample :
    read_care_plan_from_excel negGrid = Except.ok ⟨-5, 433, 0, Option.none, []⟩ ∧
    (-5 : Rat) < 0 := by decide

/-- Claim C7, witness: the amended theorem applied to the scenario grid. -/
theorem C7_witness :
    0 ≤ (⟨100, 433, 50, Option.some 20000, [exItem]⟩ : CarePlan).weekly_income_gbp ∧
    0 ≤ (⟨100, 433, 50, Option.some 20000, [exItem]⟩ : CarePlan).monthly_income_gbp ∧
    ∀ i ∈ (⟨100, 433, 50, Option.some 20000, [exItem]⟩ : CarePlan).items,
      0 ≤ i.amount_gbp :=
  C7_main exGrid ⟨100, 433, 50, Option.some 20000, [exItem]⟩ (by decide) (by decide)

/-- Claim C9 (confirmed): the breakdown loop is a finite iteration bounded by
the number of rows of the region, one unit of fuel per visited row with early
termination at the first terminal sentinel: the row count always suffices as
fuel. -/
theorem C9_main (region : List Row) (fuel : Nat) (h : region.length ≤ fuel) :
    scanItemsFuel fuel region = Option.some (scanItems region) := by
  induction region generalizing fuel with
  | nil => cases fuel <;> rfl
  | cons row rest ih =>
    match fuel with
    | 0 => exact absurd h (by simp)
    | f + 1 =>
      have hlen : rest.length ≤ f := by
        simp only [List.length_cons] at h
        omega
      simp only [scanItemsFuel, scanItems]
      cases hc : cellStr row.c1 with
      | none => exact ih f hlen
      | some a =>
        by_cases he : (pyStrip a).isEmpty = true
        · simp only [he, if_true]
          exact ih f hlen
        · simp only [he, if_false]
          by_cases hsent : (toUpperStr (pyStrip a) == totalLabel ||
              toUpperStr (pyStrip a) == remainingLabel) = true
          · by_cases htot : (toUpperStr (pyStrip a) == totalLabel) = true
            · simp [hsent, htot]
            · have hrem : (toUpperStr (pyStrip a) == remainingLabel) = true := by
                rcases Bool.or_eq_true_iff.mp hsent with hb | hb
                · exact absurd hb htot
                · exact hb
              simp [hrem, htot]
          · simp only [Bool.not_eq_true] at hsent
            cases hg : _to_float row.c2 with
            | none => simp [hsent, hg, ih f hlen]
            | some amt => simp [hsent, hg, ih f hlen]

/-- Claim C9, witness: two units of fuel suffice for the two-row breakdown
region of the scenario grid. -/
theorem C9_witness :
    scanItemsFuel 2 (exGrid.drop 3) = Option.some (scanItems (exGrid.drop 3)) :=
  C9_main (exGrid.drop 3) 2 (by decide)

theorem leadsWith_length (p : Str) : ∀ u, leadsWith p u = true → p.length ≤ u.length := by
  induction p with
  | nil => intro u _; simp
  | cons ph pt ih =>
    intro u h
    cases u with
    | nil => simp [leadsWith] at h
    | cons c cs =>
      simp only [leadsWith, Bool.and_eq_true] at h
      have := ih cs h.2
      simp only [List.length_cons]
      omega

theorem ne_of_ws_of_not_ws {a b : Char} (ha : isWS a = false) (hb : isWS b = true) :
    a ≠ b := by
  intro he
  rw [he, hb] at ha
  exact Bool.noConfusion ha

theorem pyRemove_ws_prepend (p w s : Str) (hw : ∀ c ∈ w, isWS c = true)
    (hp : ∀ c ∈ p, isWS c = false) (hne : p ≠ []) :
    pyRemove p (w ++ s) = w ++ pyRemove p s := by
  induction w with
  | nil => simp
  | cons c w' ih =>
    have hlead : leadsWith p (c :: (w' ++ s)) = false := by
      cases p with
      | nil => exact absurd rfl hne
      | cons ph pt =>
        have h1 : isWS ph = false := hp ph (by simp)
        have h2 : isWS c = true := hw c (by simp)
        simp [leadsWith, ne_of_ws_of_not_ws h1 h2]
    rw [List.cons_append, pyRemove_cons, hlead]
    simp only [Bool.false_and, Bool.false_eq_true, if_false]
    rw [ih (fun d hd => hw d (by simp [hd]))]
    rfl

theorem leadsWith_append_ws (p : Str) (hp : ∀ c ∈ p, isWS c = false) :
    ∀ u w, (∀ c ∈ w, isWS c = true) → leadsWith p (u ++ w) = leadsWith p u := by
  induction p with
  | nil => intro u w _; rfl
  | cons ph pt ih =>
    intro u w hw
    cases u with
    | nil =>
      simp only [List.nil_append]
      cases w with
      | nil => rfl
      | cons wc wr =>
        have h1 : isWS ph = false := hp ph (by simp)
        have h2 : isWS wc = true := hw wc (by simp)
        simp [leadsWith, ne_of_ws_of_not_ws h1 h2]
    | cons uc ur =>
      simp only [List.cons_append, leadsWith, List.append_eq]
      rw [ih (fun d hd => hp d (by simp [hd])) ur w hw]

theorem pyRemove_all_ws (p w : Str) (hw : ∀ c ∈ w, isWS c = true)
    (hp : ∀ c ∈ p, isWS c = false) (hne : p ≠ []) : pyRemove p w = w := by
  have := pyRemove_ws_prepend p w [] hw hp hne
  simpa [pyRemove_nil] using this

theorem pyRemove_ws_append (p : Str) (hp : ∀ c ∈ p, isWS c = false) (hne : p ≠ []) :
    ∀ n (s w : Str), s.length ≤ n → (∀ c ∈ w, isWS c = true) →
      pyRemove p (s ++ w) = pyRemove p s ++ w := by
  intro n
  induction n with
  | zero =>
    intro s w hn hw
    have : s = [] := List.length_eq_zero.mp (Nat.le_zero.mp hn)
    subst this
    simp only [List.nil_append, pyRemove_nil]
    exact pyRemove_all_ws p w hw hp hne
  | succ m ih =>
    intro s w hn hw
    cases s with
    | nil =>
      simp only [List.nil_append, pyRemove_nil]
      exact pyRemove_all_ws p w hw hp hne
    | cons c cs =>
      rw [List.cons_append, pyRemove_cons, pyRemove_cons]
      have hl : leadsWith p (c :: (cs ++ w)) = leadsWith p (c :: cs) := by
        have := leadsWith_append_ws p hp (c :: cs) w hw
        simpa using this
      rw [hl]
      by_cases hcond : (leadsWith p (c :: cs) && !p.isEmpty) = true
      · rw [if_pos hcond, if_pos hcond]
        have hlw : leadsWith p (c :: cs) = true := (Bool.and_eq_true _ _ |>.mp hcond).1
        have hlen := leadsWith_length p _ hlw
        have hdrop : List.drop (p.length - 1) (cs ++ w) =
            List.drop (p.length - 1) cs ++ w := by
          rw [List.drop_append_eq_append_drop]
          have hz : p.length - 1 - cs.length = 0 := by
            simp only [List.length_cons] at hlen
            omega
          rw [hz, List.drop_zero]
        rw [hdrop]
        apply ih
        · have := List.length_drop (p.length - 1) cs
          simp only [List.length_cons] at hn
          omega
        · exact hw
      · rw [if_neg hcond, if_neg hcond]
        rw [ih cs w (by simp only [List.length_cons] at hn; omega) hw]
        rfl

theorem dropWhile_ws_prepend (w s : Str) (hw : ∀ c ∈ w, isWS c = true) :
    List.dropWhile isWS (w ++ s) = List.dropWhile isWS s := by
  induction w with
  | nil => rfl
  | cons c w' ih =>
    rw [List.cons_append, List.dropWhile_cons]
    rw [hw c (by simp)]
    simp only [if_true]
    exact ih (fun d hd => hw d (by simp [hd]))

theorem pyStrip_ws_prepend (w s : Str) (hw : ∀ c ∈ w, isWS c = true) :
    pyStrip (w ++ s) = pyStrip s := by
  unfold pyStrip
  rw [dropWhile_ws_prepend w s hw]

theorem pyStrip_ws_append (s w : Str) (hw : ∀ c ∈ w, isWS c = true) :
    pyStrip (s ++ w) = pyStrip s := by
  unfold pyStrip
  rw [List.dropWhile_append]
  by_cases hemp : (s.dropWhile isWS).isEmpty = true
  · rw [if_pos hemp]
    have h1 : List.dropWhile isWS w = [] := by
      have := dropWhile_ws_prepend w [] hw
      simpa using this
    have h2 : s.dropWhile isWS = [] := by simpa [List.isEmpty_iff] using hemp
    rw [h1, h2]
  · rw [if_neg hemp]
    rw [List.reverse_append]
    rw [dropWhile_ws_prepend w.reverse _ (fun c hc => hw c (List.mem_reverse.mp hc))]

theorem pyStrip_decomp (s : Str) :
    ∃ w1 w2, (∀ c ∈ w1, isWS c = true) ∧ (∀ c ∈ w2, isWS c = true) ∧
      s = w1 ++ (pyStrip s ++ w2) := by
  refine ⟨s.takeWhile isWS, ((s.dropWhile isWS).reverse.takeWhile isWS).reverse,
    ?_, ?_, ?_⟩
  · intro c hc; exact List.mem_takeWhile_imp hc
  · intro c hc; exact List.mem_takeWhile_imp (List.mem_reverse.mp hc)
  · have h2 : s.dropWhile isWS =
        pyStrip s ++ ((s.dropWhile isWS).reverse.takeWhile isWS).reverse := by
      unfold pyStrip
      conv_lhs => rw [← List.reverse_reverse (s.dropWhile isWS)]
      conv_lhs =>
        rw [← List.takeWhile_append_dropWhile isWS (s.dropWhile isWS).reverse]
      rw [List.reverse_append]
    conv_lhs => rw [← List.takeWhile_append_dropWhile isWS s]
    rw [← h2]

theorem pyStrip_pyRemove_pyStrip (p s : Str) (hp : ∀ c ∈ p, isWS c = false)
    (hne : p ≠ []) :
    pyStrip (pyRemove p (pyStrip s)) = pyStrip (pyRemove p s) := by
  obtain ⟨w1, w2, hw1, hw2, hdec⟩ := pyStrip_decomp s
  conv_rhs => rw [hdec]
  rw [pyRemove_ws_prepend p w1 _ hw1 hp hne]
  rw [pyRemove_ws_append p hp hne (pyStrip s).length (pyStrip s) w2 le_rfl hw2]
  rw [pyStrip_ws_prepend _ _ hw1, pyStrip_ws_append _ _ hw2]

theorem parseFloat_nil : parseFloat [] = Option.none := rfl

/-- The GBP coercion of a text cell is exactly the parse of the marker-free,
separator-free, trimmed form: the intermediate strips of the source loop are
immaterial. -/
theorem toFloat_txt (v : Str) : _to_float (Cell.txt v) = parseFloat (strippedGBP v) := by
  have hgbp : pyStrip (pyRemove gbpMarker (pyStrip (pyRemove poundMarker
      (pyRemove commaStr (pyStrip v))))) =
      pyStrip (pyRemove gbpMarker (pyRemove poundMarker
        (pyRemove commaStr (pyStrip v)))) :=
    pyStrip_pyRemove_pyStrip gbpMarker _ (by decide) (by decide)
  have hngn : pyStrip (pyRemove ngnMarker (pyStrip (pyRemove gbpMarker
      (pyRemove poundMarker (pyRemove commaStr (pyStrip v)))))) =
      pyStrip (pyRemove ngnMarker (pyRemove gbpMarker
        (pyRemove poundMarker (pyRemove commaStr (pyStrip v))))) :=
    pyStrip_pyRemove_pyStrip ngnMarker _ (by decide) (by decide)
  have hnaira : pyStrip (pyRemove nairaMarker (pyStrip (pyRemove ngnMarker
      (pyRemove gbpMarker (pyRemove poundMarker (pyRemove commaStr (pyStrip v))))))) =
      pyStrip (pyRemove nairaMarker (pyRemove ngnMarker
        (pyRemove gbpMarker (pyRemove poundMarker (pyRemove commaStr (pyStrip v)))))) :=
    pyStrip_pyRemove_pyStrip nairaMarker _ (by decide) (by decide)
  show (let s0 := pyRemove commaStr (pyStrip v)
    let s1 := pyStrip (pyRemove poundMarker s0)
    let s2 := pyStrip (pyRemove gbpMarker s1)
    let s3 := pyStrip (pyRemove ngnMarker s2)
    let s4 := pyStrip (pyRemove nairaMarker s3)
    if s4.isEmpty then Option.none else parseFloat s4) = parseFloat (strippedGBP v)
  simp only [hgbp, hngn, hnaira]
  show (if (strippedGBP v).isEmpty then Option.none else parseFloat (strippedGBP v)) =
    parseFloat (strippedGBP v)
  by_cases he : (strippedGBP v).isEmpty = true
  · have : strippedGBP v = [] := by simpa [List.isEmpty_iff] using he
    rw [this]
    simp [parseFloat_nil]
  · rw [if_neg he]

/-- The NGN coercion of a text cell is exactly the parse of its marker-free,
separator-free, trimmed form. -/
theorem toNgn_txt (v : Str) : _to_ngn_float (Cell.txt v) = parseFloat (strippedNGN v) := by
  show (if (strippedNGN v).isEmpty then Option.none else parseFloat (strippedNGN v)) =
    parseFloat (strippedNGN v)
  by_cases he : (strippedNGN v).isEmpty = true
  · have : strippedNGN v = [] := by simpa [List.isEmpty_iff] using he
    rw [this]
    simp [parseFloat_nil]
  · rw [if_neg he]

/-- Claim C4 (confirmed): for every text input whose separator-free,
marker-free, trimmed form parses as a number, each Value Coercion variant
returns exactly the numeric value of that stripped form. -/
theorem C4_main (v : Str) (q : Rat) :
    (parseFloat (strippedGBP v) = Option.some q →
      _to_float (Cell.txt v) = Option.some q) ∧
    (parseFloat (strippedNGN v) = Option.some q →
      _to_ngn_float (Cell.txt v) = Option.some q) := by
  constructor
  · intro h
    rw [toFloat_txt v, h]
  · intro h
    rw [toNgn_txt v, h]

/-- Claim C4, witness: pound-marked and naira-marked inputs with thousands
separators parse to the separator-free values. -/
theorem C4_witness :
    parseFloat (strippedGBP "Â£1,234".data) = Option.some 1234 ∧
    _to_float (Cell.txt "Â£1,234".data) = Option.some 1234 ∧
    parseFloat (strippedNGN "â‚¦216,000".data) = Option.some 216000 ∧
    _to_ngn_float (Cell.txt "â‚¦216,000".data) = Option.some 216000 :=
  ⟨by decide, (C4_main "Â£1,234".data 1234).1 (by decide),
   by decide, (C4_main "â‚¦216,000".data 216000).2 (by decide)⟩

/-- Claim C5 (confirmed): both coercion variants are total functions of the
cell value; numeric input passes through, null input and text whose stripped
form is empty or fails to parse yield the absent result. -/
theorem C5_main :
    (_to_float Cell.blank = Option.none ∧ _to_ngn_float Cell.blank = Option.none) ∧
    (∀ q, _to_float (Cell.num q) = Option.some q ∧
      _to_ngn_float (Cell.num q) = Option.some q) ∧
    (∀ v, pyStrip v = [] →
      _to_float (Cell.txt v) = Option.none ∧ _to_ngn_float (Cell.txt v) = Option.none) ∧
    (∀ v, parseFloat (strippedGBP v) = Option.none →
      _to_float (Cell.txt v) = Option.none) ∧
    (∀ v, parseFloat (strippedNGN v) = Option.none →
      _to_ngn_float (Cell.txt v) = Option.none) := by
  refine ⟨⟨rfl, rfl⟩, fun q => ⟨rfl, rfl⟩, ?_, ?_, ?_⟩
  · intro v hv
    constructor
    · rw [toFloat_txt v]
      unfold strippedGBP
      rw [hv]
      rfl
    · rw [toNgn_txt v]
      unfold strippedNGN
      rw [hv]
      rfl
  · intro v h
    rw [toFloat_txt v, h]
  · intro v h
    rw [toNgn_txt v, h]

/-- Claim C5, witness: the theorem instantiated at a null cell, a numeric
cell, a whitespace-only text and a non-numeric text. -/
theorem C5_witness :
    _to_float Cell.blank = Option.none ∧
    _to_float (Cell.num 5) = Option.some 5 ∧
    _to_float (Cell.txt "  ".data) = Option.none ∧
    _to_ngn_float (Cell.txt "abc".data) = Option.none :=
  ⟨C5_main.1.1,
   (C5_main.2.1 5).1,
   (C5_main.2.2.1 "  ".data (by decide)).1,
   C5_main.2.2.2.2 "abc".data (by decide)⟩

/-- Characters that can occur in a successfully parsed float literal. -/
def gChar (c : Char) : Bool :=
  c.isDigit || c == '+' || c == '-' || c == '.' || c == 'e' || c == 'E'

theorem ws_not_gChar (c : Char) (h : isWS c = true) : gChar c = false := by
  simp only [isWS, Char.isWhitespace, Bool.or_eq_true, decide_eq_true_eq] at h
  rcases h with ((h | h) | h) | h <;> subst h <;> decide

theorem parseSign_snd_cases (s : Str) :
    (parseSign s).2 = s ∨
      ∃ c r, s = c :: r ∧ gChar c = true ∧ (parseSign s).2 = r := by
  cases s with
  | nil => exact Or.inl rfl
  | cons c r =>
    by_cases hp : (c == '+') = true
    · refine Or.inr ⟨c, r, rfl, ?_, ?_⟩
      · have : c = '+' := by simpa using hp
        subst this
        decide
      · simp [parseSign, hp]
    · by_cases hm : (c == '-') = true
      · refine Or.inr ⟨c, r, rfl, ?_, ?_⟩
        · have : c = '-' := by simpa using hm
          subst this
          decide
        · simp [parseSign, hp, hm]
      · exact Or.inl (by simp [parseSign, hp, hm])

theorem leadsWith_decomp (p : Str) :
    ∀ u, leadsWith p u = true → u = p ++ u.drop p.length := by
  induction p with
  | nil => intro u _; simp
  | cons ph pt ih =>
    intro u h
    cases u with
    | nil => simp [leadsWith] at h
    | cons c cs =>
      simp only [leadsWith, Bool.and_eq_true, beq_iff_eq] at h
      have h1 := h.1
      subst h1
      simp only [List.length_cons, List.drop_succ_cons, List.cons_append,
        List.cons.injEq, true_and]
      exact ih cs h.2

theorem parseExp_chars (s : Str) (e : Int) (h : parseExp s = Option.some e) :
    ∀ c ∈ s, gChar c = true := by
  unfold parseExp at h
  by_cases hcond : (((parseSign s).2.takeWhile Char.isDigit).isEmpty ||
      !((parseSign s).2.dropWhile Char.isDigit).isEmpty) = true
  · rw [if_pos hcond] at h
    exact absurd h (by simp)
  · have hparts := hcond
    simp only [Bool.or_eq_true, Bool.not_eq_true', not_or, Bool.not_eq_true] at hparts
    have hdrop : (parseSign s).2.dropWhile Char.isDigit = [] := by
      have := hparts.2
      simpa [List.isEmpty_iff] using this
    have htw : ∀ c ∈ (parseSign s).2, Char.isDigit c = true := by
      intro c hcmem
      have hsplit : (parseSign s).2 = (parseSign s).2.takeWhile Char.isDigit := by
        conv_lhs => rw [← List.takeWhile_append_dropWhile Char.isDigit (parseSign s).2]
        rw [hdrop, List.append_nil]
      rw [hsplit] at hcmem
      exact List.mem_takeWhile_imp hcmem
    intro c hcs
    rcases parseSign_snd_cases s with heq | ⟨c0, r, hs, hg0, hr⟩
    · have := htw c (by rw [heq]; exact hcs)
      simp [gChar, this]
    · subst hs
      rcases List.mem_cons.mp hcs with h0 | hmem
      · subst h0
        exact hg0
      · have := htw c (by rw [hr]; exact hmem)
        simp [gChar, this]

theorem parseTail_chars (neg : Bool) (m : Rat) (t : Str) (q : Rat)
    (h : parseTail neg m t = Option.some q) : ∀ c ∈ t, gChar c = true := by
  cases t with
  | nil => intro c hc; exact absurd hc (by simp)
  | cons c r =>
    simp only [parseTail] at h
    by_cases hce : (c == 'e' || c == 'E') = true
    · rw [if_pos hce] at h
      cases hpe : parseExp r with
      | none => rw [hpe] at h; exact absurd h (by simp)
      | some e =>
        intro d hd
        rcases List.mem_cons.mp hd with h0 | hmem
        · subst h0
          rcases Bool.or_eq_true_iff.mp hce with hc1 | hc1
          · have : d = 'e' := by simpa using hc1
            subst this
            decide
          · have : d = 'E' := by simpa using hc1
            subst this
            decide
        · exact parseExp_chars r e hpe d hmem
    · rw [if_neg hce] at h
      exact absurd h (by simp)

/-- Every character of a successfully parsed float literal is a digit, a
sign, a dot or an exponent letter. -/
theorem parseFloat_chars (s : Str) (q : Rat) (h : parseFloat s = Option.some q) :
    ∀ c ∈ s, gChar c = true := by
  have hmain : ∀ c ∈ (parseSign s).2, gChar c = true := by
    simp only [parseFloat] at h
    intro c hct
    have hdecomp : (parseSign s).2 =
        (parseSign s).2.takeWhile Char.isDigit ++
          (parseSign s).2.dropWhile Char.isDigit :=
      (List.takeWhile_append_dropWhile _ _).symm
    cases hs2 : (parseSign s).2.dropWhile Char.isDigit with
    | nil =>
      rw [hs2] at h
      rw [hdecomp, hs2, List.append_nil] at hct
      have := List.mem_takeWhile_imp hct
      simp [gChar, this]
    | cons c2 r2 =>
      rw [hs2] at h
      by_cases hdot : (c2 == '.') = true
      · simp only [hdot, if_true] at h
        by_cases hguard : (((parseSign s).2.takeWhile Char.isDigit).isEmpty &&
            (r2.takeWhile Char.isDigit).isEmpty) = true
        · rw [if_pos hguard] at h
          exact absurd h (by simp)
        · rw [if_neg hguard] at h
          have htail := parseTail_chars _ _ _ _ h
          rw [hdecomp, hs2] at hct
          rcases List.mem_append.mp hct with hip | hc2r
          · have := List.mem_takeWhile_imp hip
            simp [gChar, this]
          · rcases List.mem_cons.mp hc2r with h0 | hr2
            · subst h0
              have hcc : c = '.' := by simpa using hdot
              subst hcc
              decide
            · have hr2split : r2 = r2.takeWhile Char.isDigit ++
                  r2.dropWhile Char.isDigit :=
                (List.takeWhile_append_dropWhile _ _).symm
              rw [hr2split] at hr2
              rcases List.mem_append.mp hr2 with htk | hdp
              · have := List.mem_takeWhile_imp htk
                simp [gChar, this]
              · exact htail c hdp
      · have hdot' : (c2 == '.') = false := by simpa using hdot
        simp only [hdot', Bool.false_eq_true, if_false] at h
        by_cases hip : ((parseSign s).2.takeWhile Char.isDigit).isEmpty = true
        · rw [if_pos hip] at h
          exact absurd h (by simp)
        · rw [if_neg hip] at h
          have htail := parseTail_chars _ _ _ _ h
          rw [hdecomp, hs2] at hct
          rcases List.mem_append.mp hct with hip2 | hc2r
          · have := List.mem_takeWhile_imp hip2
            simp [gChar, this]
          · exact htail c hc2r
  intro c hcs
  rcases parseSign_snd_cases s with heq | ⟨c0, r, hs, hg0, hr⟩
  · exact hmain c (by rw [heq]; exact hcs)
  · subst hs
    rcases List.mem_cons.mp hcs with h0 | hmem
    · subst h0
      exact hg0
    · exact hmain c (by rw [hr]; exact hmem)

theorem filter_g_pyRemove (p : Str) (hp : ∀ c ∈ p, gChar c = false) :
    ∀ n (s : Str), s.length ≤ n →
      List.filter gChar (pyRemove p s) = List.filter gChar s := by
  intro n
  induction n with
  | zero =>
    intro s hn
    have : s = [] := List.length_eq_zero.mp (Nat.le_zero.mp hn)
    subst this
    rfl
  | succ m ih =>
    intro s hn
    cases s with
    | nil => rfl
    | cons c cs =>
      rw [pyRemove_cons]
      by_cases hcond : (leadsWith p (c :: cs) && !p.isEmpty) = true
      · rw [if_pos hcond]
        have hlw : leadsWith p (c :: cs) = true := ((Bool.and_eq_true _ _).mp hcond).1
        have hne : p ≠ [] := by
          have h2 := ((Bool.and_eq_true _ _).mp hcond).2
          cases p with
          | nil => simp at h2
          | cons a b => simp
        have hdec := leadsWith_decomp p (c :: cs) hlw
        have hdrop : List.drop p.length (c :: cs) = List.drop (p.length - 1) cs := by
          cases p with
          | nil => exact absurd rfl hne
          | cons a b => simp
        have hlen : (List.drop (p.length - 1) cs).length ≤ m := by
          have := List.length_drop (p.length - 1) cs
          simp only [List.length_cons] at hn
          omega
        rw [ih _ hlen]
        conv_rhs => rw [hdec]
        rw [List.filter_append]
        have hfp : List.filter gChar p = [] :=
          List.filter_eq_nil_iff.mpr (fun d hd => by simp [hp d hd])
        rw [hfp, List.nil_append, hdrop]
      · rw [if_neg hcond]
        rw [List.filter_cons, List.filter_cons]
        rw [ih cs (by simp only [List.length_cons] at hn; omega)]

theorem filter_g_pyStrip (s : Str) :
    List.filter gChar (pyStrip s) = List.filter gChar s := by
  obtain ⟨w1, w2, hw1, hw2, hdec⟩ := pyStrip_decomp s
  conv_rhs => rw [hdec]
  rw [List.filter_append, List.filter_append]
  have h1 : List.filter gChar w1 = [] :=
    List.filter_eq_nil_iff.mpr (fun c hc => by simp [ws_not_gChar c (hw1 c hc)])
  have h2 : List.filter gChar w2 = [] :=
    List.filter_eq_nil_iff.mpr (fun c hc => by simp [ws_not_gChar c (hw2 c hc)])
  rw [h1, h2, List.nil_append, List.append_nil]

theorem filter_g_strippedGBP (v : Str) :
    List.filter gChar (strippedGBP v) = List.filter gChar v := by
  unfold strippedGBP
  rw [filter_g_pyStrip]
  rw [filter_g_pyRemove nairaMarker (by decide) _ _ le_rfl]
  rw [filter_g_pyRemove ngnMarker (by decide) _ _ le_rfl]
  rw [filter_g_pyRemove gbpMarker (by decide) _ _ le_rfl]
  rw [filter_g_pyRemove poundMarker (by decide) _ _ le_rfl]
  rw [filter_g_pyRemove commaStr (by decide) _ _ le_rfl]
  rw [filter_g_pyStrip]

theorem filter_g_strippedNGN (v : Str) :
    List.filter gChar (strippedNGN v) = List.filter gChar v := by
  unfold strippedNGN
  rw [filter_g_pyStrip]
  rw [filter_g_pyRemove ngnMarker (by decide) _ _ le_rfl]
  rw [filter_g_pyRemove nairaMarker (by decide) _ _ le_rfl]
  rw [filter_g_pyRemove commaStr (by decide) _ _ le_rfl]
  rw [filter_g_pyStrip]

/-- Claim C10 (corrected): the two coercion variants agree whenever both
return a numeric value. It is not true that every secondary-coercible value
is primary-coercible: the two variants delete the naira markers in opposite
orders, so a string interleaving them parses under the secondary variant but
not under the primary one. -/
theorem C10_main (v : Cell) (x y : Rat)
    (hn : _to_ngn_float v = Option.some x) (hf : _to_float v = Option.some y) :
    x = y := by
  cases v with
  | blank => exact absurd hn (by simp [_to_ngn_float])
  | num q =>
    have h1 : q = x := Option.some.inj (by simpa [_to_ngn_float] using hn)
    have h2 : q = y := Option.some.inj (by simpa [_to_float] using hf)
    rw [← h1, ← h2]
  | txt s =>
    rw [toNgn_txt] at hn
    rw [toFloat_txt] at hf
    have hA : ∀ c ∈ strippedGBP s, gChar c = true := parseFloat_chars _ _ hf
    have hB : ∀ c ∈ strippedNGN s, gChar c = true := parseFloat_chars _ _ hn
    have heq : strippedGBP s = strippedNGN s := by
      have e1 : List.filter gChar (strippedGBP s) = strippedGBP s :=
        List.filter_eq_self.mpr hA
      have e2 : List.filter gChar (strippedNGN s) = strippedNGN s :=
        List.filter_eq_self.mpr hB
      rw [← e1, ← e2, filter_g_strippedGBP, filter_g_strippedNGN]
    rw [heq, hn] at hf
    exact Option.some.inj hf

/-- Claim C10, counterexample to the claim as stated: a string interleaving
the naira symbol inside the letters NGN is secondary-coercible to five but
primary-coercion yields the absent result. -/
theorem C10_counterexample :
    _to_ngn_float (Cell.txt "Nâ‚¦GN5".data) = Option.some 5 ∧
    _to_float (Cell.txt "Nâ‚¦GN5".data) = Option.none := by decide

/-- Claim C10, witness: on a plainly naira-marked amount both variants agree. -/
theorem C10_witness : (216000 : Rat) = 216000 :=
  C10_main (Cell.txt "â‚¦216,000".data) 216000 216000 (by decide) (by decide)

/-- Round half to even at zero decimal places, as the Python format
specifier .0f does. -/
def roundHalfEven (q : Rat) : Int :=
  let f := q.floor
  let r := q - f
  if r < 1 / 2 then f
  else if 1 / 2 < r then f + 1
  else if f % 2 = 0 then f else f + 1

/-- Decimal digit string of an integer. -/
def intToStr (i : Int) : Str :=
  match i with
  | Int.ofNat n => Nat.toDigits 10 n
  | Int.negSucc n => '-' :: Nat.toDigits 10 (n + 1)

/-- Model of the Python format .0f on the values of the plan. -/
def fmtF0 (q : Rat) : Str := intToStr (roundHalfEven q)

/-- Insert a comma after every three characters of a reversed digit string. -/
def group3Rev : Str → Nat → Str
  | [], _ => []
  | c :: r, 0 => ',' :: c :: group3Rev r 2
  | c :: r, k + 1 => c :: group3Rev r k

/-- Model of the Python format ,.0f: round, then group the digits in threes
with commas. -/
def fmtComma0 (q : Rat) : Str :=
  let n := roundHalfEven q
  let grouped := (group3Rev (Nat.toDigits 10 n.natAbs).reverse 3).reverse
  if n < 0 then '-' :: grouped else grouped

/-- The empty line appended between sections. -/
def emptyLine : Str := []

/-- The title line of the message, exactly as in the source. -/
def titleLine : Str := "ðŸ§¾ MomCareBot â€” Monthly Support Plan".data

/-- The fixed fragments of the formatted lines, exactly as in the source. -/
def incomePrefix : Str := "Income: Â£".data

/-- Middle fragment of the income line. -/
def weekInfix : Str := "/week (~Â£".data

/-- Final fragment of the income line. -/
def monthSuffix : Str := "/month)".data

/-- Prefix of the planned-support line. -/
def supportPrefix : Str := "Planned support: Â£".data

/-- Fragment that opens the secondary-currency approximation. -/
def approxPrefix : Str := " (â‰ˆ â‚¦".data

/-- The closing parenthesis of the approximation. -/
def closeParen : Str := ")".data

/-- The bullet that opens an item line. -/
def bulletPrefix : Str := "â€¢ ".data

/-- The separator between an item category and its amount. -/
def amountSep : Str := ": Â£".data

/-- The income summary line of the message. -/
def incomeLine (p : CarePlan) : Str :=
  incomePrefix ++ fmtF0 p.weekly_income_gbp ++ weekInfix ++
    fmtF0 p.monthly_income_gbp ++ monthSuffix

/-- The planned-support line: the secondary-currency approximation appears
exactly when the secondary total is present. -/
def supportLine (p : CarePlan) : Str :=
  match p.total_support_ngn with
  | Option.some n =>
    supportPrefix ++ fmtF0 p.total_support_gbp ++
      approxPrefix ++ fmtComma0 n ++ closeParen
  | Option.none => supportPrefix ++ fmtF0 p.total_support_gbp

/-- The breakdown header line. -/
def breakdownLine : Str := "Breakdown:".data

/-- One bulleted item line: the secondary-currency approximation appears
exactly when the item secondary amount is present. -/
def bulletLine (i : BudgetItem) : Str :=
  match i.amount_ngn with
  | Option.some n =>
    bulletPrefix ++ i.category ++ amountSep ++ fmtF0 i.amount_gbp ++
      approxPrefix ++ fmtComma0 n ++ closeParen
  | Option.none =>
    bulletPrefix ++ i.category ++ amountSep ++ fmtF0 i.amount_gbp

/-- The closing reminder line. -/
def reminderLine : Str :=
  "âœ… Reminder: keep it consistent + save emergency fund monthly.".data

/-- The lines appended by format_plan_for_telegram, in order of the appends
of the source. -/
def formatLines (p : CarePlan) : List Str :=
  titleLine :: incomeLine p :: supportLine p :: emptyLine :: breakdownLine ::
    (p.items.map bulletLine ++ (emptyLine :: [reminderLine]))

/-- Model of format_plan_for_telegram: the lines joined with newlines. -/
def format_plan_for_telegram (p : CarePlan) : Str :=
  List.intercalate ['\n'] (formatLines p)

/-- A plan with zero items, used for the formatting scenario. -/
def emptyPlan : CarePlan := ⟨100, 433, 0, Option.none, []⟩

/-- Claim C6 (corrected): the formatted message is exactly the title line,
the income line, the planned-support line (with the secondary approximation
iff the secondary total is present), a blank line, the Breakdown header, one
bulleted line per item in order (with the approximation iff the item has a
secondary amount), a second blank line, and the reminder line, joined with
newlines; the claim as stated omits the second blank line. -/
theorem C6_main (p : CarePlan) :
    format_plan_for_telegram p = List.intercalate ['\n'] (formatLines p) ∧
    formatLines p =
      [titleLine, incomeLine p, supportLine p, emptyLine, breakdownLine] ++
        p.items.map bulletLine ++ [emptyLine, reminderLine] ∧
    (p.total_support_ngn = Option.none →
      supportLine p = supportPrefix ++ fmtF0 p.total_support_gbp) ∧
    (∀ n, p.total_support_ngn = Option.some n →
      supportLine p = supportPrefix ++ fmtF0 p.total_support_gbp ++
        approxPrefix ++ fmtComma0 n ++ closeParen) ∧
    (∀ i : BudgetItem, i.amount_ngn = Option.none →
      bulletLine i = bulletPrefix ++ i.category ++ amountSep ++ fmtF0 i.amount_gbp) ∧
    (∀ (i : BudgetItem) n, i.amount_ngn = Option.some n →
      bulletLine i = bulletPrefix ++ i.category ++ amountSep ++ fmtF0 i.amount_gbp ++
        approxPrefix ++ fmtComma0 n ++ closeParen) := by
  refine ⟨rfl, ?_, ?_, ?_, ?_, ?_⟩
  · simp [formatLines, emptyLine]
  · intro h
    simp [supportLine, h]
  · intro n h
    simp [supportLine, h]
  · intro i h
    simp [bulletLine, h]
  · intro i n h
    simp [bulletLine, h]

/-- Claim C6, counterexample to the claim as stated: for the zero-item plan
the message has seven lines, a blank line standing between the breakdown
section and the reminder, so the claimed six-line shape with a single blank
separator is not the output. -/
theorem C6_counterexample :
    formatLines emptyPlan =
      [titleLine, incomeLine emptyPlan, supportLine emptyPlan, emptyLine,
        breakdownLine, emptyLine, reminderLine] ∧
    formatLines emptyPlan ≠
      [titleLine, incomeLine emptyPlan, supportLine emptyPlan, emptyLine,
        breakdownLine, reminderLine] := by
  constructor
  · rfl
  · intro h
    have hlen := congrArg List.length h
    simp [formatLines] at hlen

/-- Claim C6, witness: the amended theorem applied to the scenario plan with
a secondary total present, and to the zero-item plan. -/
theorem C6_witness :
    supportLine ⟨100, 433, 50, Option.some 20000, [exItem]⟩ =
      supportPrefix ++ fmtF0 (50 : Rat) ++ approxPrefix ++ fmtComma0 20000 ++ closeParen ∧
    formatLines emptyPlan =
      [titleLine, incomeLine emptyPlan, supportLine emptyPlan, emptyLine, breakdownLine] ++
        [] ++ [emptyLine, reminderLine] :=
  ⟨(C6_main ⟨100, 433, 50, Option.some 20000, [exItem]⟩).2.2.2.1 20000 rfl,
   (C6_main emptyPlan).2.1⟩

example : fmtF0 (100 : Rat) = "100".data := by decide

example : fmtComma0 (20000 : Rat) = "20,000".data := by decide

/-- The header row written by the csv writer on first creation: the five
field names of logger.log_event. -/
def logHeader : List Str :=
  ["timestamp_uk".data, "job".data, "status".data, "message".data, "extra".data]

/-- The row appended for one call of log_event: timestamp, job and status as
given, message and extra capped at four hundred characters (the
`(x or empty)` of the source is the identity on strings). -/
def logRow (ts job status message extra : Str) : List Str :=
  [ts, job, status, message.take 400, extra.take 400]

/-- Model of logger.log_event: the state of the log file is either absent or
the list of its rows; the timestamp is supplied by the environment. When the
file does not exist the header is written first, then the record; otherwise
the record is appended. -/
def log_event (ts job status message extra : Str)
    (st : Option (List (List Str))) : List (List Str) :=
  match st with
  | Option.none => [logHeader, logRow ts job status message extra]
  | Option.some rows => rows ++ [logRow ts job status message extra]

/-- Claim C8 (corrected): only the message and extra-detail fields are capped
to four hundred characters; timestamp, job name and status are written
uncapped; the header row is written exactly once, when the file does not yet
exist. -/
theorem C8_main (ts job status message extra : Str)
    (st : Option (List (List Str))) :
    (st = Option.none →
      log_event ts job status message extra st =
        [logHeader, [ts, job, status, message.take 400, extra.take 400]]) ∧
    (∀ rows, st = Option.some rows →
      log_event ts job status message extra st =
        rows ++ [[ts, job, status, message.take 400, extra.take 400]]) ∧
    (message.take 400).length ≤ 400 ∧
    (extra.take 400).length ≤ 400 := by
  refine ⟨?_, ?_, ?_, ?_⟩
  · intro h
    subst h
    rfl
  · intro rows h
    subst h
    rfl
  · exact List.length_take_le 400 message
  · exact List.length_take_le 400 extra

/-- A job name longer than the defensive limit. -/
def longJob : Str := List.replicate 401 'j'

set_option maxRecDepth 4096 in
/-- Claim C8, counterexample to the claim as stated: the job field of the
appended record is written uncapped, at length four hundred and one. -/
theorem C8_counterexample :
    log_event "t".data longJob "STARTED".data [] [] Option.none =
      [logHeader, ["t".data, longJob, "STARTED".data, [], []]] ∧
    longJob.length = 401 ∧
    ¬longJob.length ≤ 400 := by
  refine ⟨rfl, ?_, ?_⟩
  · simp [longJob]
  · simp [longJob]

/-- Claim C8, witness: the amended theorem applied to a first write and to an
append to an existing file. -/
theorem C8_witness :
    log_event "t".data "job1".data "SENT".data "m".data "x".data Option.none =
      [logHeader, ["t".data, "job1".data, "SENT".data, "m".data.take 400,
        "x".data.take 400]] ∧
    log_event "t".data "job1".data "SENT".data "m".data "x".data
        (Option.some [logHeader]) =
      [logHeader] ++ [["t".data, "job1".data, "SENT".data, "m".data.take 400,
        "x".data.take 400]] :=
  ⟨(C8_main "t".data "job1".data "SENT".data "m".data "x".data Option.none).1 rfl,
   (C8_main "t".data "job1".data "SENT".data "m".data "x".data
      (Option.some [logHeader])).2.1 [logHeader] rfl⟩

example : parseFloat "200".data = Option.some 200 := by decide
example : parseFloat "216000".data = Option.some 216000 := by decide
example : parseFloat "-2.5e1".data = Option.some (-25) := by decide
example : _to_float (Cell.txt "Â£200".data) = Option.some 200 := by decide
example : _to_ngn_float (Cell.txt "â‚¦216,000".data) = Option.some 216000 := by decide
example : _to_ngn_float (Cell.txt "Nâ‚¦GN5".data) = Option.some 5 := by decide
example : _to_float (Cell.txt "Nâ‚¦GN5".data) = Option.none := by decide

end MomCareBot
